import Mathlib

/-!
Verification of the segmentation-combination pipeline of the
medical_image_segmentation repository.

The embedding models the units that the checked properties touch:

- `combine_segmentations` (src/segmentation.py): a run directory is modelled
  as the list of its entries in the order the operating system returns them
  from `os.listdir`; every entry carries its filename, its 3-D shape, its
  flattened voxel data (floating-point samples modelled as exact rationals),
  and its affine matrix.  The python code filters names ending in ".nii.gz",
  indexes the first element (an IndexError on an empty list), allocates a
  `np.zeros(shape, dtype=np.uint8)` volume, and for each file performs
  `combined_data[data > 0] = idx` with `idx` counted from 1.  The numpy
  boolean assignment requires the shape of the mask to equal the target shape
  (an IndexError otherwise, for the 3-D volumes the segmenter produces), and
  the uint8 store reduces the label modulo 2^8.
- `save_combined_segmentation` (src/segmentation.py): runs the combination
  and only then writes the combined file; file writes are made explicit as a
  trace of `FileWrite` records.
- `main` (src/main.py): the batch loop over the discovered CT files, which
  performs no exception handling, modelled by `main_loop`.
- `dice_score` (src/experiement.py) over exact rationals.
- `create_output_directory` (src/utils.py): the run-directory naming scheme,
  with paths modelled as lists of components.
-/

/-- A 3-D array shape, as produced by the segmenter (all masks are 3-D NIfTI
volumes). -/
abbrev Shape := Nat × Nat × Nat

/-- Number of voxels of a shape. -/
def shapeSize (s : Shape) : Nat := s.1 * s.2.1 * s.2.2

/-- A 4x4 affine matrix; only carried through, never inspected, so any
rational matrix works. -/
abbrev Affine := List (List ℚ)

/-- One file of a run directory: its filename, and — for a volumetric file —
the shape, flattened voxel data and affine that `load_nifti_file` would
return for it. -/
structure MaskFile where
  name : String
  shape : Shape
  data : List ℚ
  affine : Affine
  hlen : data.length = shapeSize shape

/-- The uncaught python exceptions the combination pipeline can raise.
`indexOutOfRange` models the IndexError from `nii_files[0]` on an empty
list; `booleanIndexMismatch` models the IndexError numpy raises when the
boolean index `data > 0` does not match the shape of `combined_data`;
`externalToolError` models a failure inside the external segmentation
call. -/
inductive PyError where
  | indexOutOfRange
  | booleanIndexMismatch
  | externalToolError
deriving DecidableEq

/-- Python `s.endswith(post)`: the character sequence of `post` is a suffix
of that of `s`. -/
def pyEndsWith (s post : String) : Bool :=
  post.data.isSuffixOf s.data

/-- One numpy statement `combined[data > 0] = idx` with `combined` of dtype
uint8: every entry whose mask sample is positive is overwritten with
`idx % 256`. -/
def maskAssign (idx : Nat) : List Nat → List ℚ → List Nat
  | [], _ => []
  | c :: cs, [] => c :: cs
  | c :: cs, d :: ds => (if 0 < d then idx % 256 else c) :: maskAssign idx cs ds

/-- The `for idx, nii_file in enumerate(nii_files, start=1)` loop of
`combine_segmentations`: each file is applied to the accumulator in turn;
numpy rejects a mask whose shape differs from the reference shape. -/
def applyMasks : List MaskFile → Nat → Shape → List Nat → Except PyError (List Nat)
  | [], _, _, combined => Except.ok combined
  | m :: rest, idx, refShape, combined =>
    if m.shape = refShape then
      applyMasks rest (idx + 1) refShape (maskAssign idx combined m.data)
    else
      Except.error PyError.booleanIndexMismatch

/-- `combine_segmentations(output_directory)` from src/segmentation.py.
The run directory is the list of its files in `os.listdir` order.  The
function filters the names ending in ".nii.gz", loads the first such file to
fix the reference shape and affine (IndexError when there is none),
allocates an all-zero uint8 volume of the reference shape, folds the
boolean-index assignments over all files in listing order with 1-based
labels, and returns the combined volume with the affine of the first file. -/
def combine_segmentations (dir : List MaskFile) : Except PyError (List Nat × Affine) :=
  match dir.filter (fun f => pyEndsWith f.name ".nii.gz") with
  | [] => Except.error PyError.indexOutOfRange
  | sample :: rest =>
    match applyMasks (sample :: rest) 1 sample.shape (List.replicate (shapeSize sample.shape) 0) with
    | Except.ok c => Except.ok (c, sample.affine)
    | Except.error e => Except.error e

/-- 1-based position (counting from `idx`) of the last file of `files` whose
voxel sample at flat index `j` is positive; `none` when no file is positive
there.  This is the specification vocabulary for the last-write-wins fusion. -/
def lastPositiveFrom (files : List MaskFile) (idx j : Nat) : Option Nat :=
  match files with
  | [] => none
  | m :: rest =>
    match lastPositiveFrom rest (idx + 1) j with
    | some k => some k
    | none => if 0 < m.data.getD j 0 then some idx else none

example : pyEndsWith "heart.nii.gz" ".nii.gz" = true := by decide
example : pyEndsWith "notes.txt" ".nii.gz" = false := by decide

lemma maskAssign_length (idx : Nat) :
    ∀ (cs : List Nat) (ds : List ℚ), (maskAssign idx cs ds).length = cs.length := by
  intro cs
  induction cs with
  | nil => intro ds; cases ds <;> rfl
  | cons c cs ih =>
    intro ds
    cases ds with
    | nil => rfl
    | cons d ds => simp [maskAssign, ih]

lemma maskAssign_getD (idx : Nat) :
    ∀ (cs : List Nat) (ds : List ℚ) (j : Nat), j < cs.length → j < ds.length →
      (maskAssign idx cs ds).getD j 0 =
        if 0 < ds.getD j 0 then idx % 256 else cs.getD j 0 := by
  intro cs
  induction cs with
  | nil => intro ds j hj _; exact absurd hj (Nat.not_lt_zero j)
  | cons c cs ih =>
    intro ds j hj hjd
    cases ds with
    | nil => exact absurd hjd (Nat.not_lt_zero j)
    | cons d ds =>
      cases j with
      | zero => simp [maskAssign]
      | succ j =>
        simp only [maskAssign, List.getD_cons_succ]
        exact ih ds j (Nat.lt_of_succ_lt_succ hj) (Nat.lt_of_succ_lt_succ hjd)

lemma replicate_getD (n j : Nat) : (List.replicate n (0 : Nat)).getD j 0 = 0 := by
  induction n generalizing j with
  | zero => cases j <;> rfl
  | succ n ih =>
    cases j with
    | zero => rfl
    | succ j => exact ih j

lemma lastPositiveFrom_bounds :
    ∀ (files : List MaskFile) (idx j k : Nat), lastPositiveFrom files idx j = some k →
      idx ≤ k ∧ k < idx + files.length := by
  intro files
  induction files with
  | nil => intro idx j k h; exact Option.noConfusion h
  | cons m rest ih =>
    intro idx j k h
    rw [lastPositiveFrom] at h
    cases hl : lastPositiveFrom rest (idx + 1) j with
    | some r =>
      rw [hl] at h
      obtain ⟨h1, h2⟩ := ih (idx + 1) j k (hl.trans h)
      exact ⟨Nat.le_of_succ_le h1, by simp only [List.length_cons]; omega⟩
    | none =>
      rw [hl] at h
      by_cases hp : 0 < m.data.getD j 0
      · rw [if_pos hp] at h
        cases h
        exact ⟨Nat.le_refl _, by simp⟩
      · rw [if_neg hp] at h
        cases h

/-- Characterisation of the assignment loop on a shape-homogeneous file
list: it succeeds, preserves the accumulator length, and each entry ends up
holding the wrapped 1-based index of the last file positive there, or its
initial value when no file is positive there. -/
lemma applyMasks_ok_char :
    ∀ (files : List MaskFile) (idx : Nat) (refShape : Shape) (combined : List Nat),
      (∀ f ∈ files, f.shape = refShape) →
      combined.length = shapeSize refShape →
      ∃ c, applyMasks files idx refShape combined = Except.ok c ∧
        c.length = combined.length ∧
        ∀ j, j < combined.length →
          c.getD j 0 = match lastPositiveFrom files idx j with
            | some k => k % 256
            | none => combined.getD j 0 := by
  intro files
  induction files with
  | nil =>
    intro idx refShape combined _ _
    exact ⟨combined, rfl, rfl, fun j _ => rfl⟩
  | cons m rest ih =>
    intro idx refShape combined hsh hc
    have hm : m.shape = refShape := hsh m (List.mem_cons_self m rest)
    have hml : (maskAssign idx combined m.data).length = combined.length :=
      maskAssign_length idx combined m.data
    obtain ⟨c, happ, hclen, hchar⟩ := ih (idx + 1) refShape (maskAssign idx combined m.data)
      (fun f hf => hsh f (List.mem_cons_of_mem m hf)) (hml.trans hc)
    refine ⟨c, ?_, hclen.trans hml, ?_⟩
    · simpa [applyMasks, hm] using happ
    · intro j hj
      have hjd : j < m.data.length := by
        rw [m.hlen, hm, ← hc]; exact hj
      have hstep := hchar j (by rw [hml]; exact hj)
      rw [maskAssign_getD idx combined m.data j hj hjd] at hstep
      rw [hstep, lastPositiveFrom]
      cases hl : lastPositiveFrom rest (idx + 1) j with
      | some k => rfl
      | none =>
        by_cases hp : 0 < m.data.getD j 0
        · rw [if_pos hp, if_pos hp]
        · rw [if_neg hp, if_neg hp]

/-- The assignment loop fails with the numpy boolean-index IndexError as soon
as the shape of some file differs from the reference shape. -/
lemma applyMasks_mismatch :
    ∀ (files : List MaskFile) (idx : Nat) (refShape : Shape) (combined : List Nat),
      (∃ f ∈ files, f.shape ≠ refShape) →
      applyMasks files idx refShape combined = Except.error PyError.booleanIndexMismatch := by
  intro files
  induction files with
  | nil => intro idx refShape combined h; simp at h
  | cons m rest ih =>
    intro idx refShape combined h
    by_cases hm : m.shape = refShape
    · obtain ⟨f, hf, hne⟩ := h
      rcases List.mem_cons.mp hf with rfl | hfr
      · exact absurd hm hne
      · simp only [applyMasks, if_pos hm]
        exact ih (idx + 1) refShape (maskAssign idx combined m.data) ⟨f, hfr, hne⟩
    · simp only [applyMasks, if_neg hm]

/-- Codepoint order on character sequences: the order the python `sorted` builtin uses
on strings. -/
def charListLe : List Char → List Char → Bool
  | [], _ => true
  | _ :: _, [] => false
  | a :: as, b :: bs =>
    if a.val < b.val then true
    else if b.val < a.val then false
    else charListLe as bs

/-- Insertion step of a filename-ordered sort of mask files. -/
def insertByName (m : MaskFile) : List MaskFile → List MaskFile
  | [] => [m]
  | x :: xs =>
    if charListLe m.name.data x.name.data then m :: x :: xs
    else x :: insertByName m xs

/-- Sort a file list by filename (insertion sort). -/
def sortByName : List MaskFile → List MaskFile
  | [] => []
  | x :: xs => insertByName x (sortByName xs)

/-- One pass of the specified fusion with exact integer labels (no dtype
narrowing). -/
def specAssign (idx : Nat) : List Nat → List ℚ → List Nat
  | [], _ => []
  | c :: cs, [] => c :: cs
  | c :: cs, d :: ds => (if 0 < d then idx else c) :: specAssign idx cs ds

/-- The specified fusion loop over a sorted file list. -/
def specApply : List MaskFile → Nat → List Nat → List Nat
  | [], _, combined => combined
  | m :: rest, idx, combined => specApply rest (idx + 1) (specAssign idx combined m.data)

/-- Modelled from the spec, for comparison with `combine_segmentations`:
mask files are discovered *sorted by filename*, fused over an all-zero
integer volume of the reference shape with label = 1-based position in the
sorted order, last write wins, and the reference affine is the first
sorted file.  (Used on shape-homogeneous inputs, where the specified grid validation
is trivially satisfied.) -/
def spec_combine (dir : List MaskFile) : Option (List Nat × Affine) :=
  match sortByName (dir.filter (fun f => pyEndsWith f.name ".nii.gz")) with
  | [] => none
  | sample :: rest =>
    some (specApply (sample :: rest) 1 (List.replicate (shapeSize sample.shape) 0),
      sample.affine)

/-- A file written to the run directory: its name within the directory and
the volume payload. -/
structure FileWrite where
  path : String
  payload : List Nat
  affine : Affine
deriving DecidableEq

/-- `save_combined_segmentation(output_path)` from src/segmentation.py: run
the combination, and only afterwards build the combined filename and write
the file.  The second component is the trace of file writes performed; the
python exception from a failed combination aborts the function before the
write statement is reached, so the trace of a failing run is empty. -/
def save_combined_segmentation (dir : List MaskFile) (timestamp : String) :
    Except PyError (List Nat) × List FileWrite :=
  match combine_segmentations dir with
  | Except.error e => (Except.error e, [])
  | Except.ok (c, a) =>
    (Except.ok c, [⟨("_combined_" ++ timestamp) ++ ".nii", c, a⟩])

/-- One iteration of the batch loop in src/main.py: the external
segmentation call (modelled as an oracle producing the run-directory
listing, or failing), followed by `save_combined_segmentation`.  Any raised
exception propagates. -/
def process_one (segmenter : String → Except PyError (List MaskFile))
    (timestamp : String) (ct_file : String) : Except PyError (List Nat) :=
  match segmenter ct_file with
  | Except.error e => Except.error e
  | Except.ok dir =>
    match save_combined_segmentation dir timestamp with
    | (Except.error e, _) => Except.error e
    | (Except.ok c, _) => Except.ok c

/-- The `for ct_file in tqdm(ct_files)` loop of `main()` in src/main.py.
The loop body is not wrapped in any exception handler, so the first raised
exception aborts the whole loop; on success the per-file results are
collected in order. -/
def main_loop (segmenter : String → Except PyError (List MaskFile))
    (timestamp : String) : List String → Except PyError (List (List Nat))
  | [] => Except.ok []
  | f :: fs =>
    match process_one segmenter timestamp f with
    | Except.error e => Except.error e
    | Except.ok c =>
      match main_loop segmenter timestamp fs with
      | Except.error e => Except.error e
      | Except.ok cs => Except.ok (c :: cs)

/-- `dice_score(y_true, y_pred)` from src/experiement.py, with the float64
samples and the `1e-6` epsilon modelled as exact rationals. -/
def dice_score (y_true y_pred : List ℚ) : ℚ :=
  if y_true.sum = 0 ∧ y_pred.sum = 0 then 1
  else
    let intersect := (List.zipWith (fun a b => a * b) y_true y_pred).sum
    let denominator := y_true.sum + y_pred.sum
    2 * intersect / (denominator + 1 / 1000000)

/-- Index of the last occurrence of the dot character in a character list
(python `str.rfind`), scanning with a running index. -/
def rfindDotAux : List Char → Nat → Option Nat → Option Nat
  | [], _, acc => acc
  | c :: cs, i, acc =>
    rfindDotAux cs (i + 1) (if c.val = 46 then some i else acc)

/-- `pathlib.PurePath.stem`: the final component without its last suffix;
the suffix exists only when the last dot is neither the first nor the last
character. -/
def stemOf (fileName : String) : String :=
  let cs := fileName.data
  match rfindDotAux cs 0 none with
  | some i => if 0 < i ∧ i < cs.length - 1 then (cs.take i).asString else fileName
  | none => fileName

/-- Name of the final path component, given a path as its list of
components; empty for an empty path. -/
def fileNameOf (p : List String) : String := (p.getLast?).getD ""

/-- Name of the parent directory of a path given as components. -/
def parentNameOf (p : List String) : String := (p.dropLast.getLast?).getD ""

/-- The run-directory name built by `create_output_directory` in
src/utils.py: the f-string
`TotalSegmentator_` + parent folder name + `_` + stem + `_seg_` + timestamp,
with the timestamp formatted at second resolution by `get_timestamp`. -/
def create_output_directory_name (ct_file : List String) (timestamp : String) : String :=
  ("TotalSegmentator_" ++ parentNameOf ct_file ++ "_" ++ stemOf (fileNameOf ct_file)
    ++ "_seg_") ++ timestamp

example : stemOf "ct.nii.gz" = "ct.nii" := by decide
example : stemOf "ct" = "ct" := by decide
example : create_output_directory_name ["x", "a", "ct.nii.gz"] "20241102_185803"
    = "TotalSegmentator_a_ct.nii_seg_20241102_185803" := by decide

/-- Unfolding of `combine_segmentations` on a directory whose filtered
listing is known. -/
lemma combine_eq (dir : List MaskFile) (fst : MaskFile) (rest : List MaskFile)
    (hf : dir.filter (fun f => pyEndsWith f.name ".nii.gz") = fst :: rest) :
    combine_segmentations dir =
      match applyMasks (fst :: rest) 1 fst.shape (List.replicate (shapeSize fst.shape) 0) with
      | Except.ok c => Except.ok (c, fst.affine)
      | Except.error e => Except.error e := by
  rw [combine_segmentations, hf]

/-- A shared trivial affine matrix for concrete runs. -/
def afU : Affine := [[1]]

/-- Concrete mask file: a single-voxel mask named "a.nii.gz" that is zero
everywhere. -/
def mA : MaskFile := ⟨"a.nii.gz", (1, 1, 1), [0], afU, rfl⟩

/-- Concrete mask file: a single-voxel mask named "b.nii.gz" whose voxel is
positive. -/
def mB : MaskFile := ⟨"b.nii.gz", (1, 1, 1), [1], afU, rfl⟩

/-- Concrete non-volumetric file: the ".nii.gz" filter rejects it. -/
def mTxt : MaskFile := ⟨"notes.txt", (1, 1, 1), [0], afU, rfl⟩

/-- Concrete mask file whose shape disagrees with the single-voxel masks. -/
def mBadShape : MaskFile := ⟨"c.nii.gz", (2, 1, 1), [1, 1], afU, rfl⟩

/-- Concrete single-voxel positive mask with a distinctive affine. -/
def m9a : MaskFile := ⟨"a.nii.gz", (1, 1, 1), [1], [[1, 2], [3, 4]], rfl⟩

/-- Concrete single-voxel positive mask with a different affine than `m9a`. -/
def m9b : MaskFile := ⟨"b.nii.gz", (1, 1, 1), [1], [[9]], rfl⟩

/-- Concrete single-voxel positive mask, the output of a successful external
segmentation in the batch scenarios. -/
def mGood : MaskFile := ⟨"organ.nii.gz", (1, 1, 1), [1], afU, rfl⟩

/-- Concrete external-segmenter oracle: fails on the CT file named
"bad_ct.nii.gz" and populates the run directory with `mGood` otherwise. -/
def segC : String → Except PyError (List MaskFile) :=
  fun f => if f = "bad_ct.nii.gz" then Except.error PyError.externalToolError
    else Except.ok [mGood]

lemma zipWith_mul_self_sum :
    ∀ (A : List ℚ), (∀ x ∈ A, x = 0 ∨ x = 1) →
      (List.zipWith (fun a b => a * b) A A).sum = A.sum := by
  intro A
  induction A with
  | nil => intro _; rfl
  | cons a t ih =>
    intro hA
    simp only [List.zipWith_cons_cons, List.sum_cons]
    rw [ih (fun x hx => hA x (List.mem_cons_of_mem a hx))]
    rcases hA a (List.mem_cons_self a t) with h | h <;> rw [h] <;> ring

lemma string_append_left_cancel (s a b : String) (h : s ++ a = s ++ b) : a = b := by
  have hd : (s ++ a).data = (s ++ b).data := congrArg String.data h
  rw [String.data_append, String.data_append] at hd
  exact String.ext (List.append_cancel_left hd)

/-- C1 (amended): for every non-empty recognized mask set whose files all
share the shape of the first file, the combined volume holds, at every voxel, the
1-based index in directory-listing order of the last mask whose value there
is positive, reduced modulo 256 by the uint8 store, and 0 where no mask is
positive.  The code takes the masks in the order `os.listdir` returns them;
it performs no sort, so the claimed sorted-order indexing holds only when
the listing happens to be sorted. -/
theorem combine_lastWriteWins_listingOrder
    (dir : List MaskFile) (fst : MaskFile) (rest : List MaskFile)
    (hf : dir.filter (fun f => pyEndsWith f.name ".nii.gz") = fst :: rest)
    (hsh : ∀ f ∈ fst :: rest, f.shape = fst.shape) :
    ∃ c, combine_segmentations dir = Except.ok (c, fst.affine) ∧
      c.length = shapeSize fst.shape ∧
      ∀ j, j < c.length →
        c.getD j 0 = match lastPositiveFrom (fst :: rest) 1 j with
          | some k => k % 256
          | none => 0 := by
  obtain ⟨c, happ, hclen, hchar⟩ := applyMasks_ok_char (fst :: rest) 1 fst.shape
    (List.replicate (shapeSize fst.shape) 0) hsh (by simp)
  have hrep : (List.replicate (shapeSize fst.shape) (0 : Nat)).length = shapeSize fst.shape := by
    simp
  refine ⟨c, ?_, hclen.trans hrep, ?_⟩
  · rw [combine_eq dir fst rest hf, happ]
  · intro j hj
    have hj2 : j < (List.replicate (shapeSize fst.shape) (0 : Nat)).length := by
      rw [← hclen]; exact hj
    rw [hchar j hj2]
    cases lastPositiveFrom (fst :: rest) 1 j with
    | some k => rfl
    | none => exact replicate_getD _ _

/-- Witness for C1 at the two-file run [mB, mA]. -/
theorem combine_lastWriteWins_listingOrder_witness :
    ∃ c, combine_segmentations [mB, mA] = Except.ok (c, mB.affine) ∧
      c.length = shapeSize mB.shape ∧
      ∀ j, j < c.length →
        c.getD j 0 = match lastPositiveFrom [mB, mA] 1 j with
          | some k => k % 256
          | none => 0 :=
  combine_lastWriteWins_listingOrder [mB, mA] mB [mA] rfl
    (by
      intro f hfm
      simp only [List.mem_cons, List.not_mem_nil, or_false] at hfm
      rcases hfm with rfl | rfl <;> rfl)

/-- C1 as stated is refuted: with listing order ["b.nii.gz", "a.nii.gz"]
where only "b.nii.gz" is positive at the voxel, the code stores label 1 (the
listing position of "b.nii.gz"), while the sorted-order index of the last
positive mask demanded by the claim is 2, as the spec-modelled sorted fusion
computes. -/
theorem combine_sortedOrder_refuted :
    combine_segmentations [mB, mA] = Except.ok ([1], afU) ∧
    spec_combine [mB, mA] = some ([2], afU) :=
  ⟨rfl, rfl⟩

/-- C2 (amended): the fused volume is a deterministic function of the
listing order.  Two listings of the same mask-file set that are both sorted
by filename are the same listing, so combination over them is
byte-identical; but the code itself never sorts, so this determinism is
conditional on the listing order of the operating system. -/
theorem combine_deterministic_on_sorted_listings
    (d1 d2 : List MaskFile) (hp : d1.Perm d2)
    (h1 : d1.Sorted (fun a b => a.name < b.name))
    (h2 : d2.Sorted (fun a b => a.name < b.name)) :
    combine_segmentations d1 = combine_segmentations d2 := by
  haveI : IsAntisymm MaskFile (fun a b => a.name < b.name) :=
    ⟨fun a b hab hba => absurd hba (lt_asymm hab)⟩
  rw [List.eq_of_perm_of_sorted hp h1 h2]

/-- Witness for C2 on a concrete sorted two-file listing. -/
theorem combine_deterministic_on_sorted_listings_witness :
    combine_segmentations [mA, mB] = combine_segmentations [mA, mB] :=
  combine_deterministic_on_sorted_listings [mA, mB] [mA, mB] (List.Perm.refl _)
    (by
      simp only [List.sorted_cons, List.mem_singleton, List.sorted_singleton, and_true,
        forall_eq]
      rw [String.lt_iff_toList_lt]
      decide)
    (by
      simp only [List.sorted_cons, List.mem_singleton, List.sorted_singleton, and_true,
        forall_eq]
      rw [String.lt_iff_toList_lt]
      decide)

/-- C2 as stated is refuted: the same directory contents listed in two
different orders combine to different volumes, so without sorting two
repeated `combine` calls are byte-identical only if `os.listdir` happens to
repeat its ordering. -/
theorem combine_listing_order_sensitive :
    combine_segmentations [mB, mA] ≠ combine_segmentations [mA, mB] := by
  intro h
  rw [show combine_segmentations [mB, mA] = Except.ok ([1], afU) from rfl,
    show combine_segmentations [mA, mB] = Except.ok ([2], afU) from rfl] at h
  simp at h

/-- C3 (amended): on every directory with zero recognized mask files the
code fails by evaluating `nii_files[0]` on the empty filtered list — an
uncaught IndexError, not a dedicated EmptyMaskSetError (the repository
defines no such exception class). -/
theorem combine_empty_listing_indexError
    (dir : List MaskFile)
    (hf : dir.filter (fun f => pyEndsWith f.name ".nii.gz") = []) :
    combine_segmentations dir = Except.error PyError.indexOutOfRange := by
  rw [combine_segmentations, hf]

/-- Witness for C3: a directory holding one file that the ".nii.gz" filter
rejects. -/
theorem combine_empty_listing_indexError_witness :
    List.filter (fun f => pyEndsWith f.name ".nii.gz") [mTxt] = [] ∧
    combine_segmentations [mTxt] = Except.error PyError.indexOutOfRange :=
  ⟨rfl, combine_empty_listing_indexError [mTxt] rfl⟩

/-- C3 as stated is refuted at the concrete empty directory: the failure is
the IndexError raised by `nii_files[0]`; no EmptyMaskSetError exists
anywhere in the code, so the claimed failure kind is wrong. -/
theorem combine_empty_dir_fails_with_indexError :
    combine_segmentations [] = Except.error PyError.indexOutOfRange := rfl

/-- C4 (amended): the reference shape is the shape of the first listed file; when
every mask matches it the combination succeeds with an output volume of that
shape, and when the shape of any mask differs the loop fails with the IndexError
numpy raises for the mismatched boolean index — there is no GridMismatchError
and no explicit validation in the code. -/
theorem combine_shape_check_behavior
    (dir : List MaskFile) (fst : MaskFile) (rest : List MaskFile)
    (hf : dir.filter (fun f => pyEndsWith f.name ".nii.gz") = fst :: rest) :
    ((∀ f ∈ fst :: rest, f.shape = fst.shape) →
      ∃ c, combine_segmentations dir = Except.ok (c, fst.affine) ∧
        c.length = shapeSize fst.shape) ∧
    ((∃ f ∈ fst :: rest, f.shape ≠ fst.shape) →
      combine_segmentations dir = Except.error PyError.booleanIndexMismatch) := by
  constructor
  · intro hsh
    obtain ⟨c, happ, hclen, _⟩ := applyMasks_ok_char (fst :: rest) 1 fst.shape
      (List.replicate (shapeSize fst.shape) 0) hsh (by simp)
    refine ⟨c, ?_, ?_⟩
    · rw [combine_eq dir fst rest hf, happ]
    · rw [hclen]; simp
  · intro hne
    rw [combine_eq dir fst rest hf,
      applyMasks_mismatch (fst :: rest) 1 fst.shape _ hne]

/-- Witness for C4: the matching branch at the homogeneous run [mB, mA] and
the mismatch branch at the run [mA, mBadShape]. -/
theorem combine_shape_check_behavior_witness :
    (∃ c, combine_segmentations [mB, mA] = Except.ok (c, mB.affine) ∧
      c.length = shapeSize mB.shape) ∧
    combine_segmentations [mA, mBadShape] = Except.error PyError.booleanIndexMismatch :=
  ⟨(combine_shape_check_behavior [mB, mA] mB [mA] rfl).1
      (by
        intro f hfm
        simp only [List.mem_cons, List.not_mem_nil, or_false] at hfm
        rcases hfm with rfl | rfl <;> rfl),
   (combine_shape_check_behavior [mA, mBadShape] mA [mBadShape] rfl).2
      ⟨mBadShape, by simp, by decide⟩⟩

/-- C4 as stated is refuted at a concrete two-file run with differing
shapes: the code fails with the boolean-index IndexError from numpy, not
with any GridMismatchError (no such class exists in the repository). -/
theorem combine_shape_mismatch_not_gridError :
    combine_segmentations [mB, mBadShape] = Except.error PyError.booleanIndexMismatch := rfl

/-- C5 (amended): the batch loop of `main()` wraps its body in no exception
handler, so the exception of the first failing file propagates out of the loop
and aborts the whole batch; the remaining files are never processed. -/
theorem main_loop_aborts_on_first_failure
    (segmenter : String → Except PyError (List MaskFile)) (timestamp : String)
    (f : String) (fs : List String) (e : PyError)
    (hf : process_one segmenter timestamp f = Except.error e) :
    main_loop segmenter timestamp (f :: fs) = Except.error e := by
  rw [main_loop, hf]

/-- Witness for C5: a batch whose only file makes the external call fail. -/
theorem main_loop_aborts_on_first_failure_witness :
    main_loop segC "20241102_185803" ["bad_ct.nii.gz"] =
      Except.error PyError.externalToolError :=
  main_loop_aborts_on_first_failure segC "20241102_185803" "bad_ct.nii.gz" []
    PyError.externalToolError rfl

/-- C5 as stated is refuted: the second CT file alone processes fine, yet in
the batch ["bad_ct.nii.gz", "good_ct.nii.gz"] the external-tool failure of the
first file crashes the whole batch — nothing is caught or recorded and the
second file is never reached. -/
theorem main_loop_batch_crash_example :
    main_loop segC "20241102_185803" ["good_ct.nii.gz"] = Except.ok [[1]] ∧
    main_loop segC "20241102_185803" ["bad_ct.nii.gz", "good_ct.nii.gz"] =
      Except.error PyError.externalToolError :=
  ⟨rfl, rfl⟩

/-- C6 (amended): `dice_score` of two empty volumes is exactly 1.0, but for
a non-empty binary volume A the self-score is 2|A| / (2|A| + 1e-6), which is
strictly below 1.0 (approaching it as |A| grows) because the epsilon stays
in the denominator even when it is nonzero. -/
theorem dice_boundary_behavior :
    dice_score [] [] = 1 ∧
    ∀ A : List ℚ, (∀ x ∈ A, x = 0 ∨ x = 1) → 0 < A.sum →
      dice_score A A = 2 * A.sum / (2 * A.sum + 1 / 1000000) ∧ dice_score A A < 1 := by
  constructor
  · rfl
  · intro A hbin hpos
    have hsum : (List.zipWith (fun a b => a * b) A A).sum = A.sum :=
      zipWith_mul_self_sum A hbin
    have hne : ¬(A.sum = 0 ∧ A.sum = 0) := fun hc => absurd hc.1 (ne_of_gt hpos)
    constructor
    · rw [dice_score, if_neg hne]
      rw [hsum]
      ring_nf
    · rw [dice_score, if_neg hne, hsum]
      rw [div_lt_one (by linarith)]
      linarith

/-- Witness for C6 at the one-voxel volume [1]. -/
theorem dice_boundary_behavior_witness :
    dice_score [] [] = 1 ∧
    (dice_score [1] [1] = 2 * ([1] : List ℚ).sum / (2 * ([1] : List ℚ).sum + 1 / 1000000) ∧
      dice_score [1] [1] < 1) :=
  ⟨dice_boundary_behavior.1,
   dice_boundary_behavior.2 [1]
     (by intro x hx; rw [List.mem_singleton] at hx; exact Or.inr hx)
     (by norm_num)⟩

/-- C6 as stated is refuted at the one-voxel volume [1]: the self-score is
2 / (2 + 1e-6) = 2000000/2000001, not 1.0. -/
theorem dice_self_not_one : dice_score [1] [1] ≠ 1 := by
  norm_num [dice_score]

/-- C7 (amended): two `stage()` calls for the same source file at different
second-granularity timestamps always produce different run-directory names,
because the name is the fixed prefix built from the source identity followed
by the timestamp.  Two calls for *different* source files, however, collide
whenever the files agree on parent-folder name and stem (see the
counterexample), since only those two path components enter the name. -/
theorem stage_name_timestamp_unique
    (f : List String) (t1 t2 : String) (h : t1 ≠ t2) :
    create_output_directory_name f t1 ≠ create_output_directory_name f t2 := by
  intro heq
  simp only [create_output_directory_name] at heq
  exact h (string_append_left_cancel _ _ _ heq)

/-- Witness for C7 at one concrete source file and two timestamps one second
apart. -/
theorem stage_name_timestamp_unique_witness :
    create_output_directory_name ["x", "a", "ct.nii.gz"] "20240101_000000" ≠
      create_output_directory_name ["x", "a", "ct.nii.gz"] "20240101_000001" :=
  stage_name_timestamp_unique ["x", "a", "ct.nii.gz"] "20240101_000000" "20240101_000001"
    (by decide)

/-- C7 as stated is refuted: the distinct source files x/a/ct.nii.gz and
y/a/ct.nii.gz share parent-folder name "a" and stem "ct.nii", so at the same
timestamp their run-directory names coincide. -/
theorem stage_name_collision_example :
    (["x", "a", "ct.nii.gz"] : List String) ≠ ["y", "a", "ct.nii.gz"] ∧
    create_output_directory_name ["x", "a", "ct.nii.gz"] "20241102_185803" =
      create_output_directory_name ["y", "a", "ct.nii.gz"] "20241102_185803" :=
  ⟨by decide, rfl⟩

/-- C8 (confirmed): `combine_segmentations` performs no file write — in the
embedding its result carries no write trace at all — and
`save_combined_segmentation` first runs the combination and only afterwards
writes the combined file, so a failing combination produces the raised error
and an empty write trace, while a successful one produces exactly the single
combined file. -/
theorem save_combined_writes_only_on_success (dir : List MaskFile) (ts : String) :
    (∀ e, combine_segmentations dir = Except.error e →
      save_combined_segmentation dir ts = (Except.error e, [])) ∧
    (∀ c a, combine_segmentations dir = Except.ok (c, a) →
      save_combined_segmentation dir ts =
        (Except.ok c, [⟨("_combined_" ++ ts) ++ ".nii", c, a⟩])) := by
  constructor
  · intro e he
    rw [save_combined_segmentation, he]
  · intro c a hc
    rw [save_combined_segmentation, hc]

/-- Witness for C8: the empty run directory fails and writes nothing; the
one-mask run succeeds and writes exactly the combined file. -/
theorem save_combined_writes_only_on_success_witness :
    save_combined_segmentation [] "20241102_185803" =
      (Except.error PyError.indexOutOfRange, []) ∧
    save_combined_segmentation [mB] "20241102_185803" =
      (Except.ok [1], [⟨("_combined_" ++ "20241102_185803") ++ ".nii", [1], afU⟩]) :=
  ⟨(save_combined_writes_only_on_success [] "20241102_185803").1
      PyError.indexOutOfRange rfl,
   (save_combined_writes_only_on_success [mB] "20241102_185803").2 [1] afU rfl⟩

/-- C9 (confirmed): for every recognized mask set of a common shape the
combination succeeds — whatever the affines are, since only the first listed
affine of the first listed file is ever read — and the returned affine is
exactly that one. -/
theorem combine_affine_from_first_file
    (dir : List MaskFile) (fst : MaskFile) (rest : List MaskFile)
    (hf : dir.filter (fun f => pyEndsWith f.name ".nii.gz") = fst :: rest)
    (hsh : ∀ f ∈ fst :: rest, f.shape = fst.shape) :
    ∃ c, combine_segmentations dir = Except.ok (c, fst.affine) := by
  obtain ⟨c, happ, _, _⟩ := applyMasks_ok_char (fst :: rest) 1 fst.shape
    (List.replicate (shapeSize fst.shape) 0) hsh (by simp)
  exact ⟨c, by rw [combine_eq dir fst rest hf, happ]⟩

/-- Witness for C9: two same-shape masks with different affines combine
without any error, and the result carries the affine of the first file. -/
theorem combine_affine_from_first_file_witness :
    ∃ c, combine_segmentations [m9a, m9b] = Except.ok (c, m9a.affine) :=
  combine_affine_from_first_file [m9a, m9b] m9a [m9b] rfl
    (by
      intro f hfm
      simp only [List.mem_cons, List.not_mem_nil, or_false] at hfm
      rcases hfm with rfl | rfl <;> rfl)

/-- C10 (confirmed): the combined volume is uint8 — every voxel value is
below 256; for a mask set of at most 255 files each voxel is 0 or exactly
the 1-based label of the last positive mask there; and in general the stored
value is that label reduced modulo 2^8, so labels above 255 wrap. -/
theorem combine_uint8_label_range
    (dir : List MaskFile) (fst : MaskFile) (rest : List MaskFile)
    (hf : dir.filter (fun f => pyEndsWith f.name ".nii.gz") = fst :: rest)
    (hsh : ∀ f ∈ fst :: rest, f.shape = fst.shape) :
    ∃ c, combine_segmentations dir = Except.ok (c, fst.affine) ∧
      (∀ j, c.getD j 0 < 256) ∧
      ((fst :: rest).length ≤ 255 → ∀ j, j < c.length →
        c.getD j 0 = 0 ∨ lastPositiveFrom (fst :: rest) 1 j = some (c.getD j 0)) ∧
      (∀ j, j < c.length → ∀ k, lastPositiveFrom (fst :: rest) 1 j = some k →
        c.getD j 0 = k % 256) := by
  obtain ⟨c, happ, hclen, hchar⟩ := applyMasks_ok_char (fst :: rest) 1 fst.shape
    (List.replicate (shapeSize fst.shape) 0) hsh (by simp)
  have hlenrep : c.length = (List.replicate (shapeSize fst.shape) (0 : Nat)).length := hclen
  refine ⟨c, ?_, ?_, ?_, ?_⟩
  · rw [combine_eq dir fst rest hf, happ]
  · intro j
    by_cases hj : j < c.length
    · rw [hchar j (hlenrep ▸ hj)]
      cases lastPositiveFrom (fst :: rest) 1 j with
      | some k => exact Nat.mod_lt k (by norm_num)
      | none => rw [replicate_getD]; norm_num
    · rw [List.getD_eq_default _ _ (Nat.le_of_not_lt hj)]
      norm_num
  · intro hcount j hj
    rw [hchar j (hlenrep ▸ hj)]
    cases hl : lastPositiveFrom (fst :: rest) 1 j with
    | some k =>
      obtain ⟨hk1, hk2⟩ := lastPositiveFrom_bounds (fst :: rest) 1 j k hl
      have hk255 : k < 256 := by omega
      right
      show some k = some (k % 256)
      rw [Nat.mod_eq_of_lt hk255]
    | none => exact Or.inl (replicate_getD _ _)
  · intro j hj k hl
    rw [hchar j (hlenrep ▸ hj), hl]

/-- Witness for C10 at the two-file run [mB, mA]. -/
theorem combine_uint8_label_range_witness :
    ∃ c, combine_segmentations [mB, mA] = Except.ok (c, mB.affine) ∧
      (∀ j, c.getD j 0 < 256) ∧
      (([mB, mA] : List MaskFile).length ≤ 255 → ∀ j, j < c.length →
        c.getD j 0 = 0 ∨ lastPositiveFrom [mB, mA] 1 j = some (c.getD j 0)) ∧
      (∀ j, j < c.length → ∀ k, lastPositiveFrom [mB, mA] 1 j = some k →
        c.getD j 0 = k % 256) :=
  combine_uint8_label_range [mB, mA] mB [mA] rfl
    (by
      intro f hfm
      simp only [List.mem_cons, List.not_mem_nil, or_false] at hfm
      rcases hfm with rfl | rfl <;> rfl)
